import Mathlib

/-!
Verification of the AInanobio RGB sampling/logging appliance.

This file shallowly embeds the core of `rgb_gui.py` (the sampling/logging
scheduler, the session store, the USB export worker and its UI guard) and
proves properties about the embedding.  Pure helpers (`safe_rgb`,
`session_stamp`) are translated directly; the stateful tick loop becomes a
function on an explicit application state; time (`time.time()`) is modelled
as a rational number; the on-disk CSV files become an association list from
path to file content.  Presentation-layer effects (Qt labels, table, preview,
plot) are outside the model, as they read but never influence the logging
state.
-/

namespace AInanobio

/-! ## Fixed configuration constants (rgb_gui.py lines 24-51) -/

def WIDTH : Nat := 1280

def HEIGHT : Nat := 720

/-- RGB_LOG_INTERVAL_SEC = 60.0 : the CSV record interval in seconds. -/
def RGB_LOG_INTERVAL_SEC : ℚ := 60

/-- IMAGE_LOG_INTERVAL_SEC = 300.0 : the snapshot image interval in seconds. -/
def IMAGE_LOG_INTERVAL_SEC : ℚ := 300

def SAVE_IMAGE : Bool := true

def IMAGE_EXT : String := "jpg"

def DATA_ROOT : String := "/home/pi/Ainanobio_data"

/-- The fixed point coordinate set POINTS of rgb_gui.py (id, x, y). -/
def POINTS : List (String × Int × Int) :=
  [("p1", 506, 253), ("p2", 746, 253), ("p3", 506, 387), ("p4", 746, 387), ("pc", 626, 320)]

/-! ## Frames and the point sampler -/

/-- One pixel of a frame in the camera's native BGR channel order:
`b, g, r = frame_bgr[y, x]`. -/
structure BGRPix where
  b : Nat
  g : Nat
  r : Nat
deriving DecidableEq

/-- A full-resolution frame: dimensions plus a pixel lookup `frame[y, x]`
returning the native BGR triple. -/
structure Frame where
  width : Nat
  height : Nat
  pixel : Nat → Nat → BGRPix

/-- Well-formedness of a frame: every in-bounds pixel channel is a byte,
as numpy uint8 image data guarantees. -/
def Frame.wf (f : Frame) : Prop :=
  ∀ y, y < f.height → ∀ x, x < f.width →
    (f.pixel y x).b ≤ 255 ∧ (f.pixel y x).g ≤ 255 ∧ (f.pixel y x).r ≤ 255

/-- safe_rgb (rgb_gui.py lines 85-90): bounds-check the coordinate against the
frame shape, then read the native BGR pixel and return it reordered as
(r, g, b); out of bounds returns None. -/
def safe_rgb (frame : Frame) (x y : Int) : Option (Nat × Nat × Nat) :=
  if 0 ≤ x ∧ x < (frame.width : Int) ∧ 0 ≤ y ∧ y < (frame.height : Int) then
    let p := frame.pixel y.toNat x.toNat
    some (p.r, p.g, p.b)
  else
    none

/-! ## Timestamps and the session id -/

/-- A wall-clock instant as read by `datetime.now()`, at millisecond
resolution. -/
structure DateTime where
  year : Nat
  month : Nat
  day : Nat
  hour : Nat
  minute : Nat
  second : Nat
  millisecond : Nat
deriving DecidableEq

/-- Zero-padded two-digit rendering, as strftime %m/%d/%H/%M/%S produce. -/
def pad2 (n : Nat) : String :=
  if n < 10 then "0" ++ toString n else toString n

/-- Four-digit year rendering as strftime %Y produces (years of interest are
already four digits wide). -/
def pad4 (n : Nat) : String :=
  if n < 10 then "000" ++ toString n
  else if n < 100 then "00" ++ toString n
  else if n < 1000 then "0" ++ toString n
  else toString n

/-- session_stamp (rgb_gui.py lines 55-56):
`datetime.now().strftime("%Y-%m-%d_%H-%M-%S")` — second resolution, the
millisecond field is discarded. -/
def session_stamp (dt : DateTime) : String :=
  pad4 dt.year ++ "-" ++ pad2 dt.month ++ "-" ++ pad2 dt.day ++ "_" ++
    pad2 dt.hour ++ "-" ++ pad2 dt.minute ++ "-" ++ pad2 dt.second

/-! ## CSV rows and the simple file store -/

/-- One data row of the record CSV, with `rgb = none` standing for the three
empty R,G,B fields written for an out-of-bounds point. -/
structure Row where
  t_iso : String
  t_ms : Int
  image_path : String
  point_id : String
  x : Int
  y : Int
  rgb : Option (Nat × Nat × Nat)
deriving DecidableEq

/-- A line of the record CSV: the header row or a sample row. -/
inductive CsvEntry
  | header
  | sample (row : Row)
deriving DecidableEq

/-- Lookup in an association list keyed by path. -/
def fsGet {α : Type} : List (String × α) → String → Option α
  | [], _ => none
  | (q, w) :: rest, p => if q = p then some w else fsGet rest p

/-- Overwrite (or insert) the value stored at a path. -/
def fsSet {α : Type} : List (String × α) → String → α → List (String × α)
  | [], p, v => [(p, v)]
  | (q, w) :: rest, p, v => if q = p then (p, v) :: rest else (q, w) :: fsSet rest p v

/-! ## The application state of RGBApplianceGUI -/

/-- The logging-relevant state of `RGBApplianceGUI`.  `csvOpen` models
`csv_file`/`csv_writer` being not None; `fs` maps a CSV path to its current
content (header plus appended rows); `curFlushed` counts how many lines of
the currently open CSV have been flushed to stable storage; `images` lists
the snapshot files written during the current session. -/
structure AppState where
  running : Bool
  sessionDir : Option String
  imagesDir : Option String
  csvPath : Option String
  csvOpen : Bool
  nextRgbDue : ℚ
  nextImgDue : ℚ
  fs : List (String × List CsvEntry)
  curFlushed : Nat
  images : List String
deriving DecidableEq

/-- The state set up by `RGBApplianceGUI.__init__` (lines 486-497), with `t0`
the value of `time.time()` at construction. -/
def initState (t0 : ℚ) : AppState :=
  { running := false
    sessionDir := none
    imagesDir := none
    csvPath := none
    csvOpen := false
    nextRgbDue := t0
    nextImgDue := t0
    fs := []
    curFlushed := 0
    images := [] }

/-- start_experiment (rgb_gui.py lines 714-746).  If already running, return
unchanged.  Otherwise derive the session id from the current wall-clock time,
create the session directory, open the CSV at
`<session>/rgb_points_<sess>.csv` in truncating write mode, write the header,
set `running`, and reset both due times to `now_t = time.time()`.
Presentation-side effects (labels, buttons, plot reset) are outside the
model. -/
def start_experiment (dt : DateTime) (now_t : ℚ) (s : AppState) : AppState :=
  if s.running = true then s
  else
    let sess := session_stamp dt
    let sdir := DATA_ROOT ++ "/" ++ sess
    let idir := sdir ++ "/images"
    let cpath := sdir ++ "/rgb_points_" ++ sess ++ ".csv"
    { s with
      running := true
      sessionDir := some sdir
      imagesDir := some idir
      csvPath := some cpath
      csvOpen := true
      fs := fsSet s.fs cpath [CsvEntry.header]
      curFlushed := 0
      images := []
      nextRgbDue := now_t
      nextImgDue := now_t }

/-- stop_experiment (rgb_gui.py lines 748-765).  If not running, return
unchanged; otherwise clear `running` and close the CSV file (closing flushes
its buffered content).  `csv_path` itself is not cleared by the source. -/
def stop_experiment (s : AppState) : AppState :=
  if s.running = false then s
  else
    { s with
      running := false
      csvOpen := false
      curFlushed :=
        if s.csvOpen then ((fsGet s.fs (s.csvPath.getD "")).getD []).length
        else s.curFlushed }

/-- The image file path written by the tick's image branch:
`images_dir / f"<t_ms_img>.<IMAGE_EXT>"`. -/
def imageFilePath (idir : String) (msImg : Int) : String :=
  idir ++ "/" ++ toString msImg ++ "." ++ IMAGE_EXT

/-- The save logic of RGBApplianceGUI.tick (rgb_gui.py lines 799-841).
Inputs: the captured frame, `now_t = time.time()`, and the tick's timestamp
readings (`msImg` and `ms` model the two `now_ms()` calls of one tick,
`iso` the `now_iso()` call).  Nothing happens unless `running` and the CSV
writer is open.  The image branch and the record branch run independently;
`img_path_str` starts as the empty string on every tick and is only set when
the image branch fires on this very tick.  The record branch appends one row
per configured point, sharing one timestamp and one image-path string, then
flushes, and each fired branch schedules its next due time from `now_t`.
Presentation updates (elapsed label, live table, preview, plot) are outside
the model. -/
def tick (frame : Frame) (now_t : ℚ) (iso : String) (msImg ms : Int) (s : AppState) : AppState :=
  if s.running = true ∧ s.csvOpen = true then
    let idir := s.imagesDir.getD ""
    let imgStep :=
      if SAVE_IMAGE = true ∧ s.nextImgDue ≤ now_t then
        let p := imageFilePath idir msImg
        (p, s.images ++ [p], now_t + IMAGE_LOG_INTERVAL_SEC)
      else
        ("", s.images, s.nextImgDue)
    let imgPathStr := imgStep.1
    let images2 := imgStep.2.1
    let nextImg2 := imgStep.2.2
    if s.nextRgbDue ≤ now_t then
      let newRows := POINTS.map fun q =>
        CsvEntry.sample
          { t_iso := iso, t_ms := ms, image_path := imgPathStr,
            point_id := q.1, x := q.2.1, y := q.2.2,
            rgb := safe_rgb frame q.2.1 q.2.2 }
      let cpath := s.csvPath.getD ""
      let content := (fsGet s.fs cpath).getD [] ++ newRows
      { s with
        images := images2
        nextImgDue := nextImg2
        fs := fsSet s.fs cpath content
        curFlushed := content.length
        nextRgbDue := now_t + RGB_LOG_INTERVAL_SEC }
    else
      { s with images := images2, nextImgDue := nextImg2 }
  else s

/-! ## The USB export worker (CopyWorker, rgb_gui.py lines 167-192) -/

/-- The recursive content of one session directory, modelled as a flat list
of (relative file path, file data) pairs — enough to express wholesale
replacement versus merge. -/
def DirTree := List (String × String)
deriving DecidableEq

/-- The outcome of CopyWorker.run: the destination-root entry list after the
job, whether the destination root exists, and the single terminal
`done(ok, msg)` emission, plus the per-session `log` emissions. -/
structure CopyResult where
  entries : List (String × DirTree)
  rootExists : Bool
  ok : Bool
  msg : String
  logs : List String
deriving DecidableEq

/-- The copy loop of CopyWorker.run (lines 180-188): for each source in
order, emit a progress message, delete any pre-existing destination directory
of the same name, then copy the tree; a copy failure (`Except.error`) aborts
the loop with the triggering message, after the pre-existing destination was
already removed. -/
def copyLoop :
    List (String × Except String DirTree) → List (String × DirTree) → List String →
      List (String × DirTree) × List String × Option String
  | [], dst, logs => (dst, logs, none)
  | (name, res) :: rest, dst, logs =>
    let logs2 := logs ++ ["복사 중: " ++ name]
    let dst2 := dst.filter fun e => e.1 != name
    match res with
    | .ok tree => copyLoop rest (dst2 ++ [(name, tree)]) logs2
    | .error e => (dst2, logs2, some e)

/-- CopyWorker.run (lines 176-192): create the destination root if absent
(`mkdir(parents=True, exist_ok=True)`), run the copy loop, and emit exactly
one terminal `done` signal — success with the source count on completion,
failure with the triggering error message otherwise.  A source whose copy
would raise is modelled as an `Except.error`. -/
def copyWorkerRun (srcs : List (String × Except String DirTree))
    (dstRoot : Option (List (String × DirTree))) : CopyResult :=
  let startEntries := dstRoot.getD []
  let out := copyLoop srcs startEntries []
  match out.2.2 with
  | none =>
    { entries := out.1, rootExists := true, ok := true,
      msg := "완료: " ++ toString srcs.length ++ "개 세션 복사됨", logs := out.2.1 }
  | some e =>
    { entries := out.1, rootExists := true, ok := false,
      msg := "실패: " ++ e, logs := out.2.1 }

/-- The pure effect of a run of successful copies on the destination-root
entry list: each source, in order, replaces any same-named destination entry
wholesale. -/
def copyFold : List (String × DirTree) → List (String × DirTree) → List (String × DirTree)
  | [], d => d
  | (n, t) :: rest, d => copyFold rest ((d.filter fun e => e.1 != n) ++ [(n, t)])

/-! ## The USB panel event loop (export start guard) -/

/-- The USB-export-relevant state of RGBApplianceGUI: the detected mount,
the date list and selection of the combo box, whether the copy button is
enabled, whether a CopyWorker thread is running, the running worker's job
(source session names and destination root), and the progress label text. -/
structure UsbState where
  usbMount : Option String
  dates : List String
  selDate : String
  btnEnabled : Bool
  workerRunning : Bool
  workerJob : Option (List String × String)
  progress : String
deriving DecidableEq

/-- refresh_usb_ui (rgb_gui.py lines 643-677): adopt the first detected
mount, reload the date list keeping the current selection when still
present, and enable the copy button only when a mount and at least one date
exist and no CopyWorker is running.  The waiting-status label text detail is
elided (presentation only). -/
def refresh_usb_ui (mounts : List String) (dates : List String) (s : UsbState) : UsbState :=
  let m := mounts.head?
  let sel := if s.selDate ≠ "" ∧ s.selDate ∈ dates then s.selDate else dates.headD ""
  let canCopy := (m.isSome && !dates.isEmpty) && !s.workerRunning
  { s with
    usbMount := m
    dates := dates
    selDate := sel
    btnEnabled := canCopy
    progress := "대기 중" }

/-- copy_selected_date_to_usb (rgb_gui.py lines 679-702), as delivered by
the Qt button: a disabled button emits no `clicked` signal, so the request is
a no-op while the button is disabled.  Otherwise the handler validates mount,
date and session list, then disables the button and starts a CopyWorker for
`<mount>/Ainanobio_export/<date>`.  `sessions` is the result of
`sessions_for_date` read at click time. -/
def copy_selected_date_to_usb (sessions : List String) (s : UsbState) : UsbState :=
  if s.btnEnabled = false then s
  else
    match s.usbMount with
    | none => { s with progress := "USB가 연결되지 않음" }
    | some m =>
      if s.selDate = "" then { s with progress := "복사할 날짜를 선택해줘" }
      else if sessions = [] then
        { s with progress := s.selDate ++ " 날짜에 복사할 세션 폴더가 없음" }
      else
        { s with
          btnEnabled := false
          progress := "복사 준비 중..."
          workerRunning := true
          workerJob := some (sessions, m ++ "/Ainanobio_export/" ++ s.selDate) }

/-- _on_copy_done (rgb_gui.py lines 707-710): show the terminal message,
drop the worker reference, and refresh the panel. -/
def on_copy_done (msg : String) (mounts dates : List String) (s : UsbState) : UsbState :=
  refresh_usb_ui mounts dates
    { s with progress := msg, workerRunning := false, workerJob := none }

/-- The events delivered to the USB panel: the 1-second refresh timer, a
button click (with the session list read at click time), and the worker's
completion signal. -/
inductive UsbEvent
  | refresh (mounts dates : List String)
  | click (sessions : List String)
  | workerDone (msg : String) (mounts dates : List String)

/-- One event-loop step of the USB panel. -/
def usbStep : UsbEvent → UsbState → UsbState
  | .refresh mounts dates, s => refresh_usb_ui mounts dates s
  | .click sessions, s => copy_selected_date_to_usb sessions s
  | .workerDone msg mounts dates, s => on_copy_done msg mounts dates s

/-- The guard invariant of the USB panel: whenever a CopyWorker is running,
the copy button is disabled. -/
def UsbInv (s : UsbState) : Prop :=
  s.workerRunning = true → s.btnEnabled = false

/-! ## Concrete inputs used by witnesses and counterexamples -/

/-- A constant all-black full-resolution frame at the configured capture
size. -/
def cxFrame : Frame :=
  { width := WIDTH, height := HEIGHT, pixel := fun _ _ => { b := 0, g := 0, r := 0 } }

/-- A 100 by 100 frame whose every pixel stores B=10, G=50, R=200 in native
BGR order — the concrete sampling scenario of the spec. -/
def wFrame : Frame :=
  { width := 100, height := 100, pixel := fun _ _ => { b := 10, g := 50, r := 200 } }

/-- A concrete wall-clock instant. -/
def dtW : DateTime :=
  { year := 2026, month := 2, day := 12, hour := 14, minute := 3, second := 55, millisecond := 0 }

/-- The same second as `dtW`, 400 milliseconds later. -/
def dtW2 : DateTime :=
  { year := 2026, month := 2, day := 12, hour := 14, minute := 3, second := 55, millisecond := 400 }

/-- A freshly started session state used as a concrete recording state. -/
def demoRun : AppState := start_experiment dtW 0 (initState 0)

/-- The session started at `dtW`, time 0. -/
def cxS0 : AppState := start_experiment dtW 0 (initState 0)

def cxIso1 : String := "2026-02-12T14:03:55.000"

def cxIso2 : String := "2026-02-12T14:04:55.000"

/-- The state after the first tick of the session (time 0): both timers fire,
so a snapshot is captured and five rows referencing it are written. -/
def cxS1 : AppState := tick cxFrame 0 cxIso1 1000 1000 cxS0

/-- The state after a second tick 60 seconds later: the record timer fires
(interval 60 s) but the image timer (interval 300 s) does not. -/
def cxS2 : AppState := tick cxFrame 60 cxIso2 61000 61000 cxS1

/-- The session's CSV path. -/
def cxPath : String :=
  "/home/pi/Ainanobio_data/2026-02-12_14-03-55/rgb_points_2026-02-12_14-03-55.csv"

/-- The snapshot written by the first tick. -/
def cxImg : String := "/home/pi/Ainanobio_data/2026-02-12_14-03-55/images/1000.jpg"

/-- The image-path string the record branch of a tick shares across its rows:
the path of the image captured by this very tick when the image branch fired,
the empty string otherwise. -/
def tickImgPathStr (s : AppState) (now_t : ℚ) (msImg : Int) : String :=
  if SAVE_IMAGE = true ∧ s.nextImgDue ≤ now_t then imageFilePath (s.imagesDir.getD "") msImg
  else ""

/-- The batch of CSV entries one firing record branch appends: one sample row
per configured point, in POINTS order, all sharing the tick's timestamp pair
and image-path string. -/
def tickRows (frame : Frame) (now_t : ℚ) (iso : String) (msImg ms : Int) (s : AppState) :
    List CsvEntry :=
  POINTS.map fun q =>
    CsvEntry.sample
      { t_iso := iso, t_ms := ms, image_path := tickImgPathStr s now_t msImg,
        point_id := q.1, x := q.2.1, y := q.2.2, rgb := safe_rgb frame q.2.1 q.2.2 }

/-- Projection of a CSV entry to its image-path field. -/
def entryImagePath : CsvEntry → Option String
  | .header => none
  | .sample row => some row.image_path

/-- A concrete source session tree for export scenarios. -/
def wTreeA : DirTree :=
  [("rgb_points_2026-02-12_10-00-00.csv", "header"), ("images/1000.jpg", "jpeg-bytes")]

/-- A second concrete source session tree. -/
def wTreeB : DirTree := [("rgb_points_2026-02-12_11-00-00.csv", "header")]

/-- A destination root that already holds a stale copy of the first
session. -/
def wDst : List (String × DirTree) :=
  [("2026-02-12_10-00-00", [("rgb_points_old.csv", "stale"), ("junk.txt", "stale")])]

/-- A USB-panel state with an export worker running: the button is disabled
and the job targets the export folder of the selected date. -/
def wUsbState : UsbState :=
  { usbMount := some "/media/pi/USBDISK"
    dates := ["2026-02-12"]
    selDate := "2026-02-12"
    btnEnabled := false
    workerRunning := true
    workerJob := some (["2026-02-12_14-03-55"], "/media/pi/USBDISK/Ainanobio_export/2026-02-12")
    progress := "복사 준비 중..." }

/-! ## Library lemmas about the file store and the copy loop -/

theorem fsGet_fsSet {α : Type} (fs : List (String × α)) (p : String) (v : α) :
    fsGet (fsSet fs p v) p = some v := by
  induction fs with
  | nil => simp [fsSet, fsGet]
  | cons hd tl ih =>
    obtain ⟨q, w⟩ := hd
    by_cases h : q = p
    · simp [fsSet, fsGet, h]
    · simp [fsSet, fsGet, h, ih]

theorem fsGet_append_of_none {α : Type} {xs : List (String × α)} (ys : List (String × α))
    {p : String} (h : fsGet xs p = none) : fsGet (xs ++ ys) p = fsGet ys p := by
  induction xs with
  | nil => simp
  | cons hd tl ih =>
    obtain ⟨q, w⟩ := hd
    by_cases hq : q = p
    · simp [fsGet, hq] at h
    · simp only [fsGet, hq, if_false] at h
      simp [fsGet, hq, ih h]

theorem fsGet_append_of_some {α : Type} {xs : List (String × α)} (ys : List (String × α))
    {p : String} {v : α} (h : fsGet xs p = some v) : fsGet (xs ++ ys) p = some v := by
  induction xs with
  | nil => simp [fsGet] at h
  | cons hd tl ih =>
    obtain ⟨q, w⟩ := hd
    by_cases hq : q = p
    · simp only [fsGet, hq, if_true] at h ⊢
      simpa using h
    · simp only [fsGet, hq, if_false] at h
      simp [fsGet, hq, ih h]

theorem fsGet_filter_self {α : Type} (xs : List (String × α)) (p : String) :
    fsGet (xs.filter fun e => e.1 != p) p = none := by
  induction xs with
  | nil => simp [fsGet]
  | cons hd tl ih =>
    obtain ⟨q, w⟩ := hd
    by_cases hq : q = p
    · simp [List.filter_cons, hq, ih]
    · simp [List.filter_cons, hq, fsGet, ih]

theorem fsGet_filter_other {α : Type} (xs : List (String × α)) {p n : String} (h : p ≠ n) :
    fsGet (xs.filter fun e => e.1 != n) p = fsGet xs p := by
  induction xs with
  | nil => simp
  | cons hd tl ih =>
    obtain ⟨q, w⟩ := hd
    by_cases hq : q = n
    · have hqp : ¬q = p := fun hc => h (hc ▸ hq)
      simp [List.filter_cons, hq, fsGet, hqp, ih, Ne.symm h]
    · by_cases hqp : q = p
      · simp [List.filter_cons, hq, fsGet, hqp, h]
      · simp [List.filter_cons, hq, fsGet, hqp, ih]

theorem copyFold_preserve (srcs : List (String × DirTree)) (d : List (String × DirTree))
    (n : String) (h : ∀ q ∈ srcs, q.1 ≠ n) :
    fsGet (copyFold srcs d) n = fsGet d n := by
  induction srcs generalizing d with
  | nil => rfl
  | cons hd tl ih =>
    obtain ⟨m, t⟩ := hd
    have hm : m ≠ n := h (m, t) (by simp)
    have htl : ∀ q ∈ tl, q.1 ≠ n := fun q hq => h q (by simp [hq])
    rw [copyFold, ih _ htl]
    have h1 : fsGet ((d.filter fun e => e.1 != m)) n = fsGet d n :=
      fsGet_filter_other d (fun hcontra => hm hcontra.symm)
    cases hv : fsGet d n with
    | none =>
      rw [fsGet_append_of_none _ (h1.trans hv)]
      simp [fsGet, hm]
    | some v => exact fsGet_append_of_some _ (h1.trans hv)

theorem copyFold_copied (srcs : List (String × DirTree)) (d : List (String × DirTree))
    (hnd : (srcs.map Prod.fst).Nodup) :
    ∀ p ∈ srcs, fsGet (copyFold srcs d) p.1 = some p.2 := by
  induction srcs generalizing d with
  | nil => intro p hp; simp at hp
  | cons hd tl ih =>
    obtain ⟨m, t⟩ := hd
    simp only [List.map_cons, List.nodup_cons] at hnd
    intro p hp
    rcases List.mem_cons.mp hp with hp1 | hp2
    · subst hp1
      rw [copyFold]
      have hnot : ∀ q ∈ tl, q.1 ≠ m := by
        intro q hq hcontra
        exact hnd.1 (hcontra ▸ List.mem_map_of_mem Prod.fst hq)
      rw [copyFold_preserve tl _ m hnot]
      have h1 : fsGet ((d.filter fun e => e.1 != m)) m = none := fsGet_filter_self d m
      rw [fsGet_append_of_none _ h1]
      simp [fsGet]
    · rw [copyFold]
      exact ih _ hnd.2 p hp2

theorem copyLoop_all_ok (srcs : List (String × DirTree)) (dst : List (String × DirTree))
    (logs : List String) :
    copyLoop (srcs.map fun p => (p.1, Except.ok p.2)) dst logs =
      (copyFold srcs dst, logs ++ srcs.map (fun p => "복사 중: " ++ p.1), none) := by
  induction srcs generalizing dst logs with
  | nil => simp [copyLoop, copyFold]
  | cons hd tl ih =>
    obtain ⟨n, t⟩ := hd
    simp [copyLoop, copyFold, ih]

theorem copyLoop_ok_then_err (pre : List (String × DirTree)) (name e : String)
    (rest : List (String × Except String DirTree)) (dst : List (String × DirTree))
    (logs : List String) :
    copyLoop ((pre.map fun p => (p.1, Except.ok p.2)) ++ (name, Except.error e) :: rest)
        dst logs =
      ((copyFold pre dst).filter (fun x => x.1 != name),
        (logs ++ pre.map fun p => "복사 중: " ++ p.1) ++ ["복사 중: " ++ name], some e) := by
  induction pre generalizing dst logs with
  | nil => simp [copyLoop, copyFold]
  | cons hd tl ih =>
    obtain ⟨n, t⟩ := hd
    simp [copyLoop, copyFold, ih]

/-- Every USB-panel event preserves the guard invariant, so it holds in all
states reachable from the initial (no worker running) state. -/
theorem usbStep_preserves_inv (e : UsbEvent) (s : UsbState) (h : UsbInv s) :
    UsbInv (usbStep e s) := by
  cases e with
  | refresh mounts dates =>
    intro hrun
    simp only [usbStep, refresh_usb_ui] at hrun ⊢
    simp [hrun]
  | click sessions =>
    intro hrun
    by_cases hb : s.btnEnabled = false
    · simp only [usbStep, copy_selected_date_to_usb, hb, if_true]
    · simp only [usbStep, copy_selected_date_to_usb, hb, if_false] at hrun ⊢
      cases hm : s.usbMount with
      | none => simp [hm] at hrun ⊢; exact absurd (h hrun) hb
      | some m =>
        simp only [hm] at hrun ⊢
        by_cases hd : s.selDate = ""
        · simp [hd] at hrun ⊢; exact absurd (h hrun) hb
        · by_cases hs : sessions = []
          · simp [hd, hs] at hrun ⊢; exact absurd (h hrun) hb
          · simp [hd, hs] at hrun ⊢
  | workerDone msg mounts dates =>
    intro hrun
    simp only [usbStep, on_copy_done, refresh_usb_ui] at hrun
    simp at hrun

/-! ## Claim theorems -/

/-- C2: for every well-formed frame and every point (x, y), safe_rgb returns
a triple with every channel in [0, 255] iff 0 ≤ x < frame width and
0 ≤ y < frame height; otherwise it returns none for that point (it is a total
function, so it never raises); and in bounds it returns the native BGR pixel
reordered into canonical (r, g, b) order. -/
theorem safe_rgb_spec (f : Frame) (hf : f.wf) (x y : Int) :
    ((∃ r g b, safe_rgb f x y = some (r, g, b) ∧ r ≤ 255 ∧ g ≤ 255 ∧ b ≤ 255) ↔
      (0 ≤ x ∧ x < (f.width : Int) ∧ 0 ≤ y ∧ y < (f.height : Int))) ∧
    (¬(0 ≤ x ∧ x < (f.width : Int) ∧ 0 ≤ y ∧ y < (f.height : Int)) →
      safe_rgb f x y = none) ∧
    (∀ _ : 0 ≤ x ∧ x < (f.width : Int) ∧ 0 ≤ y ∧ y < (f.height : Int),
      safe_rgb f x y =
        some ((f.pixel y.toNat x.toNat).r, (f.pixel y.toNat x.toNat).g,
          (f.pixel y.toNat x.toNat).b)) := by
  refine ⟨⟨?_, ?_⟩, ?_, ?_⟩
  · rintro ⟨r, g, b, hsome, -⟩
    by_contra hout
    simp [safe_rgb, hout] at hsome
  · intro hin
    obtain ⟨hx0, hxw, hy0, hyh⟩ := hin
    have hy : y.toNat < f.height := by omega
    have hx : x.toNat < f.width := by omega
    obtain ⟨hb, hg, hr⟩ := hf y.toNat hy x.toNat hx
    exact ⟨_, _, _, by simp [safe_rgb, hx0, hxw, hy0, hyh], hr, hg, hb⟩
  · intro hout
    simp [safe_rgb, hout]
  · intro hin
    simp [safe_rgb, hin]

/-- Witness for C2: on the 100 by 100 frame whose pixels natively store
B=10, G=50, R=200, the in-bounds point (10, 10) samples as the canonical
triple (200, 50, 10) and the out-of-bounds point (9999, 9999) samples as
none. -/
theorem safe_rgb_spec_witness :
    safe_rgb wFrame 10 10 = some (200, 50, 10) ∧ safe_rgb wFrame 9999 9999 = none := by
  have hwf : wFrame.wf := fun y _ x _ => by simp [wFrame]
  have h1 := (safe_rgb_spec wFrame hwf 10 10).2.2 (by decide)
  have h2 := (safe_rgb_spec wFrame hwf 9999 9999).2.1 (by decide)
  exact ⟨h1, h2⟩

/-- C5: calling start_experiment while a session is already running returns
the state unchanged — no new session directory, CSV file, writer or due-time
reset; the open session is untouched. -/
theorem start_experiment_noop_when_running (dt : DateTime) (now_t : ℚ) (s : AppState)
    (h : s.running = true) : start_experiment dt now_t s = s := by
  simp [start_experiment, h]

/-- Witness for C5: starting again one second later on a freshly started
session leaves the state exactly as it was. -/
theorem start_experiment_noop_witness :
    start_experiment ⟨2026, 2, 12, 14, 3, 56, 0⟩ 1 demoRun = demoRun :=
  start_experiment_noop_when_running ⟨2026, 2, 12, 14, 3, 56, 0⟩ 1 demoRun rfl

/-- C9: a tick processed while running is false changes nothing in the
logging state — no sample row is appended to any record file, no snapshot is
written, and the due times and open-file state are untouched (only the
presentation-side rendering, which is outside this state, still happens). -/
theorem tick_noop_when_not_running (frame : Frame) (now_t : ℚ) (iso : String)
    (msImg ms : Int) (s : AppState) (h : s.running = false) :
    tick frame now_t iso msImg ms s = s := by
  simp [tick, h]

/-- Witness for C9: a tick on the freshly constructed (non-running) state is
the identity. -/
theorem tick_noop_witness :
    tick cxFrame 0 "2026-02-12T14:03:55.000" 0 0 (initState 0) = initState 0 :=
  tick_noop_when_not_running cxFrame 0 "2026-02-12T14:03:55.000" 0 0 (initState 0) rfl

/-- C6: on every tick of a running session, each timer that fires schedules
its next due time as now plus its own configured interval — computed from
now, never from the previous due time — and each timer that does not fire is
left untouched, the image timer and the record timer independently. -/
theorem tick_due_times_from_now (frame : Frame) (now_t : ℚ) (iso : String)
    (msImg ms : Int) (s : AppState) (hr : s.running = true) (hc : s.csvOpen = true) :
    ((SAVE_IMAGE = true ∧ s.nextImgDue ≤ now_t) →
        (tick frame now_t iso msImg ms s).nextImgDue = now_t + IMAGE_LOG_INTERVAL_SEC) ∧
    (¬(SAVE_IMAGE = true ∧ s.nextImgDue ≤ now_t) →
        (tick frame now_t iso msImg ms s).nextImgDue = s.nextImgDue) ∧
    (s.nextRgbDue ≤ now_t →
        (tick frame now_t iso msImg ms s).nextRgbDue = now_t + RGB_LOG_INTERVAL_SEC) ∧
    (¬s.nextRgbDue ≤ now_t →
        (tick frame now_t iso msImg ms s).nextRgbDue = s.nextRgbDue) := by
  refine ⟨fun himg => ?_, fun himg => ?_, fun hrgb => ?_, fun hrgb => ?_⟩
  · by_cases hrgb : s.nextRgbDue ≤ now_t <;> simp [tick, hr, hc, himg, hrgb]
  · by_cases hrgb : s.nextRgbDue ≤ now_t <;> simp [tick, hr, hc, himg, hrgb]
  · by_cases himg : SAVE_IMAGE = true ∧ s.nextImgDue ≤ now_t <;>
      simp [tick, hr, hc, himg, hrgb]
  · by_cases himg : SAVE_IMAGE = true ∧ s.nextImgDue ≤ now_t <;>
      simp [tick, hr, hc, himg, hrgb]

/-- Witness for C6: on the first tick of a fresh session (both timers due at
0), a tick at time 0 schedules the image timer at 0 plus the image interval
and the record timer at 0 plus the record interval. -/
theorem tick_due_times_witness :
    (tick cxFrame 0 "2026-02-12T14:03:55.000" 1000 1000 demoRun).nextImgDue =
        0 + IMAGE_LOG_INTERVAL_SEC ∧
    (tick cxFrame 0 "2026-02-12T14:03:55.000" 1000 1000 demoRun).nextRgbDue =
        0 + RGB_LOG_INTERVAL_SEC := by
  have h := tick_due_times_from_now cxFrame 0 "2026-02-12T14:03:55.000" 1000 1000 demoRun
    rfl rfl
  exact ⟨h.1 ⟨rfl, le_refl 0⟩, h.2.2.1 (le_refl 0)⟩

/-- Helper: on a firing record branch, the open CSV grows by exactly the
tick's row batch and the flush covers the whole file. -/
theorem tick_record_fs (frame : Frame) (now_t : ℚ) (iso : String) (msImg ms : Int)
    (s : AppState) (cpath : String) (hr : s.running = true) (hc : s.csvOpen = true)
    (hp : s.csvPath = some cpath) (hfire : s.nextRgbDue ≤ now_t) :
    (fsGet (tick frame now_t iso msImg ms s).fs cpath).getD [] =
        (fsGet s.fs cpath).getD [] ++ tickRows frame now_t iso msImg ms s ∧
    (tick frame now_t iso msImg ms s).curFlushed =
        ((fsGet (tick frame now_t iso msImg ms s).fs cpath).getD []).length := by
  by_cases himg : SAVE_IMAGE = true ∧ s.nextImgDue ≤ now_t <;>
    simp [tick, hr, hc, hp, hfire, himg, tickRows, tickImgPathStr, fsGet_fsSet]

/-- C3: on every firing record tick of a running session, the number of
appended sample rows equals the number of configured points, the rows are in
the fixed POINTS order carrying each point's id and coordinates, all rows of
the tick share one timestamp pair and one image-path string, and the record
file is flushed after the last row of the tick. -/
theorem tick_record_batch (frame : Frame) (now_t : ℚ) (iso : String) (msImg ms : Int)
    (s : AppState) (cpath : String) (hr : s.running = true) (hc : s.csvOpen = true)
    (hp : s.csvPath = some cpath) (hfire : s.nextRgbDue ≤ now_t) :
    ((fsGet (tick frame now_t iso msImg ms s).fs cpath).getD []).drop
        ((fsGet s.fs cpath).getD []).length =
      POINTS.map (fun q =>
        CsvEntry.sample
          { t_iso := iso, t_ms := ms, image_path := tickImgPathStr s now_t msImg,
            point_id := q.1, x := q.2.1, y := q.2.2,
            rgb := safe_rgb frame q.2.1 q.2.2 }) ∧
    (((fsGet (tick frame now_t iso msImg ms s).fs cpath).getD []).drop
        ((fsGet s.fs cpath).getD []).length).length = POINTS.length ∧
    (tick frame now_t iso msImg ms s).curFlushed =
      ((fsGet (tick frame now_t iso msImg ms s).fs cpath).getD []).length := by
  obtain ⟨hfs, hflush⟩ := tick_record_fs frame now_t iso msImg ms s cpath hr hc hp hfire
  refine ⟨?_, ?_, hflush⟩
  · rw [hfs, List.drop_left]
    rfl
  · rw [hfs, List.drop_left]
    simp [tickRows]

/-- Witness for C3: the first tick of a fresh session appends exactly five
rows, one per configured point in order, sharing the tick's timestamp and
image path, and the flush covers the whole file. -/
theorem tick_record_batch_witness :
    ((fsGet (tick cxFrame 0 "2026-02-12T14:03:55.000" 1000 1000 demoRun).fs
          (DATA_ROOT ++ "/" ++ session_stamp dtW ++ "/rgb_points_" ++ session_stamp dtW ++
            ".csv")).getD []).drop
        ((fsGet demoRun.fs
          (DATA_ROOT ++ "/" ++ session_stamp dtW ++ "/rgb_points_" ++ session_stamp dtW ++
            ".csv")).getD []).length =
      POINTS.map (fun q =>
        CsvEntry.sample
          { t_iso := "2026-02-12T14:03:55.000", t_ms := 1000,
            image_path := tickImgPathStr demoRun 0 1000,
            point_id := q.1, x := q.2.1, y := q.2.2,
            rgb := safe_rgb cxFrame q.2.1 q.2.2 }) := by
  have h := tick_record_batch cxFrame 0 "2026-02-12T14:03:55.000" 1000 1000 demoRun
    (DATA_ROOT ++ "/" ++ session_stamp dtW ++ "/rgb_points_" ++ session_stamp dtW ++ ".csv")
    rfl rfl rfl (le_refl 0)
  exact h.1

/-- C1 (amended): the image_path written into the rows of a record tick is
the path of the image captured on that same tick when the image branch fired,
and the empty string otherwise — even when snapshots from earlier ticks of
the session exist. -/
theorem tick_rows_image_path (frame : Frame) (now_t : ℚ) (iso : String) (msImg ms : Int)
    (s : AppState) (cpath : String) (hr : s.running = true) (hc : s.csvOpen = true)
    (hp : s.csvPath = some cpath) (hfire : s.nextRgbDue ≤ now_t) :
    (¬(SAVE_IMAGE = true ∧ s.nextImgDue ≤ now_t) →
      (∀ e ∈ ((fsGet (tick frame now_t iso msImg ms s).fs cpath).getD []).drop
          ((fsGet s.fs cpath).getD []).length,
        ∃ row, e = CsvEntry.sample row ∧ row.image_path = "") ∧
      (tick frame now_t iso msImg ms s).images = s.images) ∧
    ((SAVE_IMAGE = true ∧ s.nextImgDue ≤ now_t) →
      (∀ e ∈ ((fsGet (tick frame now_t iso msImg ms s).fs cpath).getD []).drop
          ((fsGet s.fs cpath).getD []).length,
        ∃ row, e = CsvEntry.sample row ∧
          row.image_path = imageFilePath (s.imagesDir.getD "") msImg) ∧
      (tick frame now_t iso msImg ms s).images =
        s.images ++ [imageFilePath (s.imagesDir.getD "") msImg]) := by
  obtain ⟨hfs, -⟩ := tick_record_fs frame now_t iso msImg ms s cpath hr hc hp hfire
  rw [hfs, List.drop_left]
  constructor
  · intro himg
    refine ⟨?_, ?_⟩
    · intro e he
      simp only [tickRows, List.mem_map] at he
      obtain ⟨q, -, hq⟩ := he
      exact ⟨_, hq.symm, by simp [tickImgPathStr, himg]⟩
    · simp [tick, hr, hc, himg, hfire]
  · intro himg
    refine ⟨?_, ?_⟩
    · intro e he
      simp only [tickRows, List.mem_map] at he
      obtain ⟨q, -, hq⟩ := he
      exact ⟨_, hq.symm, by simp [tickImgPathStr, himg]⟩
    · simp [tick, hr, hc, himg, hfire]

/-- Witness for C1 (amended): on the first tick of a fresh session the image
branch fires, so the five appended rows all carry the snapshot path of this
very tick and the snapshot list grows by that path. -/
theorem tick_rows_image_path_witness :
    (∀ e ∈ ((fsGet (tick cxFrame 0 "2026-02-12T14:03:55.000" 1000 1000 demoRun).fs
          (DATA_ROOT ++ "/" ++ session_stamp dtW ++ "/rgb_points_" ++ session_stamp dtW ++
            ".csv")).getD []).drop
        ((fsGet demoRun.fs
          (DATA_ROOT ++ "/" ++ session_stamp dtW ++ "/rgb_points_" ++ session_stamp dtW ++
            ".csv")).getD []).length,
      ∃ row, e = CsvEntry.sample row ∧
        row.image_path = imageFilePath (demoRun.imagesDir.getD "") 1000) ∧
    (tick cxFrame 0 "2026-02-12T14:03:55.000" 1000 1000 demoRun).images =
      demoRun.images ++ [imageFilePath (demoRun.imagesDir.getD "") 1000] := by
  have h := tick_rows_image_path cxFrame 0 "2026-02-12T14:03:55.000" 1000 1000 demoRun
    (DATA_ROOT ++ "/" ++ session_stamp dtW ++ "/rgb_points_" ++ session_stamp dtW ++ ".csv")
    rfl rfl rfl (le_refl 0)
  exact h.2 ⟨rfl, le_refl 0⟩

/-- Counterexample to C1 as stated: in a session whose first tick captured
the snapshot `cxImg`, the record tick 60 seconds later (which captures no
image) writes all five of its rows with an empty image_path — not with the
path of the most recently captured snapshot, although one exists in the
session. -/
theorem c1_counterexample :
    cxS1.images = [cxImg] ∧ cxImg ≠ "" ∧
    (((fsGet cxS2.fs cxPath).getD []).drop
        ((fsGet cxS1.fs cxPath).getD []).length).map entryImagePath =
      List.replicate 5 (some "") ∧
    (((fsGet cxS2.fs cxPath).getD []).drop
        ((fsGet cxS1.fs cxPath).getD []).length).map entryImagePath ≠
      List.replicate 5 (some cxImg) := by
  have hImgDue : cxS1.nextImgDue = (0 : ℚ) + 300 := rfl
  have hRgbDue : cxS1.nextRgbDue = (0 : ℚ) + 60 := rfl
  have himg : ¬(SAVE_IMAGE = true ∧ cxS1.nextImgDue ≤ (60 : ℚ)) := by
    rintro ⟨-, hle⟩
    rw [hImgDue] at hle
    norm_num at hle
  have hfire : cxS1.nextRgbDue ≤ (60 : ℚ) := by
    rw [hRgbDue]
    norm_num
  obtain ⟨hfs, -⟩ := tick_record_fs cxFrame 60 cxIso2 61000 61000 cxS1 cxPath rfl rfl rfl hfire
  have hdrop : ((fsGet cxS2.fs cxPath).getD []).drop
      ((fsGet cxS1.fs cxPath).getD []).length = tickRows cxFrame 60 cxIso2 61000 61000 cxS1 := by
    rw [show cxS2 = tick cxFrame 60 cxIso2 61000 61000 cxS1 from rfl, hfs, List.drop_left]
  have hmap : (((fsGet cxS2.fs cxPath).getD []).drop
      ((fsGet cxS1.fs cxPath).getD []).length).map entryImagePath =
      List.replicate 5 (some "") := by
    rw [hdrop]
    simp [tickRows, POINTS, entryImagePath, tickImgPathStr, himg, List.replicate]
  refine ⟨rfl, by decide, hmap, ?_⟩
  rw [hmap]
  decide

/-- Helper: a tick never changes the session metadata — the session
directory, image directory, CSV path, open flag and running flag. -/
theorem tick_preserves_meta (frame : Frame) (now_t : ℚ) (iso : String) (msImg ms : Int)
    (s : AppState) :
    (tick frame now_t iso msImg ms s).csvPath = s.csvPath ∧
    (tick frame now_t iso msImg ms s).sessionDir = s.sessionDir ∧
    (tick frame now_t iso msImg ms s).running = s.running ∧
    (tick frame now_t iso msImg ms s).imagesDir = s.imagesDir ∧
    (tick frame now_t iso msImg ms s).csvOpen = s.csvOpen := by
  by_cases h1 : s.running = true ∧ s.csvOpen = true
  · by_cases h2 : s.nextRgbDue ≤ now_t <;>
      by_cases h3 : SAVE_IMAGE = true ∧ s.nextImgDue ≤ now_t <;>
        simp [tick, h1, h2, h3]
  · simp [tick, h1]

/-- Helper: stopping never changes the CSV path or the session directory,
and afterwards the session is not running. -/
theorem stop_preserves (s : AppState) :
    (stop_experiment s).csvPath = s.csvPath ∧
    (stop_experiment s).sessionDir = s.sessionDir ∧
    (stop_experiment s).running = false := by
  by_cases h : s.running = false <;> simp [stop_experiment, h]

/-- Helper: the fields start_experiment sets when the session is not yet
running. -/
theorem start_fields (dt : DateTime) (now_t : ℚ) (s : AppState) (h : s.running = false) :
    (start_experiment dt now_t s).running = true ∧
    (start_experiment dt now_t s).csvPath =
      some (DATA_ROOT ++ "/" ++ session_stamp dt ++ "/rgb_points_" ++
        session_stamp dt ++ ".csv") ∧
    (start_experiment dt now_t s).sessionDir = some (DATA_ROOT ++ "/" ++ session_stamp dt) ∧
    (start_experiment dt now_t s).fs =
      fsSet s.fs (DATA_ROOT ++ "/" ++ session_stamp dt ++ "/rgb_points_" ++
        session_stamp dt ++ ".csv") [CsvEntry.header] := by
  refine ⟨?_, ?_, ?_, ?_⟩ <;> simp [start_experiment, h]

/-- C10: starting, stopping, and starting again within the same wall-clock
second derives the identical second-resolution session id, reuses the same
session directory and CSV path, and reopens that CSV in truncating write
mode, so after the restart the file holds only the header — the first
session's rows are erased. -/
theorem restart_same_second_truncates (dt1 dt2 : DateTime)
    (hy : dt1.year = dt2.year) (hmo : dt1.month = dt2.month) (hd : dt1.day = dt2.day)
    (hh : dt1.hour = dt2.hour) (hmi : dt1.minute = dt2.minute) (hs : dt1.second = dt2.second)
    (s0 : AppState) (h0 : s0.running = false) (frame : Frame) (t1 tA t2 : ℚ)
    (iso : String) (msImg ms : Int) :
    session_stamp dt1 = session_stamp dt2 ∧
    (start_experiment dt2 t2 (stop_experiment
        (tick frame tA iso msImg ms (start_experiment dt1 t1 s0)))).csvPath =
      (start_experiment dt1 t1 s0).csvPath ∧
    (start_experiment dt2 t2 (stop_experiment
        (tick frame tA iso msImg ms (start_experiment dt1 t1 s0)))).sessionDir =
      (start_experiment dt1 t1 s0).sessionDir ∧
    ∃ p, (start_experiment dt1 t1 s0).csvPath = some p ∧
      fsGet (start_experiment dt2 t2 (stop_experiment
          (tick frame tA iso msImg ms (start_experiment dt1 t1 s0)))).fs p =
        some [CsvEntry.header] := by
  have hstamp : session_stamp dt1 = session_stamp dt2 := by
    unfold session_stamp
    rw [hy, hmo, hd, hh, hmi, hs]
  have h3run : (stop_experiment
      (tick frame tA iso msImg ms (start_experiment dt1 t1 s0))).running = false :=
    (stop_preserves _).2.2
  obtain ⟨-, h1path, h1dir, -⟩ := start_fields dt1 t1 s0 h0
  obtain ⟨-, h4path, h4dir, h4fs⟩ := start_fields dt2 t2
    (stop_experiment (tick frame tA iso msImg ms (start_experiment dt1 t1 s0))) h3run
  refine ⟨hstamp, ?_, ?_, ?_⟩
  · rw [h4path, h1path, hstamp]
  · rw [h4dir, h1dir, hstamp]
  · refine ⟨DATA_ROOT ++ "/" ++ session_stamp dt1 ++ "/rgb_points_" ++
      session_stamp dt1 ++ ".csv", h1path, ?_⟩
    rw [h4fs, hstamp]
    exact fsGet_fsSet _ _ _

/-- Witness for C10: starting at 14:03:55.000, ticking once (which writes
five rows), stopping, and starting again at 14:03:55.400 reuses the same id,
directory and CSV path, and leaves the CSV holding only the header. -/
theorem restart_same_second_truncates_witness :
    session_stamp dtW = session_stamp dtW2 ∧
    (start_experiment dtW2 1 (stop_experiment
        (tick cxFrame 0 cxIso1 1000 1000 (start_experiment dtW 0 (initState 0))))).csvPath =
      (start_experiment dtW 0 (initState 0)).csvPath ∧
    (start_experiment dtW2 1 (stop_experiment
        (tick cxFrame 0 cxIso1 1000 1000 (start_experiment dtW 0 (initState 0))))).sessionDir =
      (start_experiment dtW 0 (initState 0)).sessionDir ∧
    ∃ p, (start_experiment dtW 0 (initState 0)).csvPath = some p ∧
      fsGet (start_experiment dtW2 1 (stop_experiment
          (tick cxFrame 0 cxIso1 1000 1000 (start_experiment dtW 0 (initState 0))))).fs p =
        some [CsvEntry.header] :=
  restart_same_second_truncates dtW dtW2 rfl rfl rfl rfl rfl rfl (initState 0) rfl
    cxFrame 0 0 1 cxIso1 1000 1000

/-- C7: an export job whose every source copy succeeds creates the
destination root, replaces each same-named destination directory wholesale
with the source's tree (sources processed in the order given), and reports a
single terminal success outcome carrying the count of sessions copied. -/
theorem copyWorkerRun_success (srcs : List (String × DirTree))
    (dst0 : Option (List (String × DirTree))) (hnd : (srcs.map Prod.fst).Nodup) :
    (copyWorkerRun (srcs.map fun p => (p.1, Except.ok p.2)) dst0).rootExists = true ∧
    (copyWorkerRun (srcs.map fun p => (p.1, Except.ok p.2)) dst0).ok = true ∧
    (copyWorkerRun (srcs.map fun p => (p.1, Except.ok p.2)) dst0).msg =
      "완료: " ++ toString srcs.length ++ "개 세션 복사됨" ∧
    ∀ p ∈ srcs,
      fsGet (copyWorkerRun (srcs.map fun p => (p.1, Except.ok p.2)) dst0).entries p.1 =
        some p.2 := by
  simp only [copyWorkerRun, copyLoop_all_ok]
  refine ⟨by trivial, by trivial, by simp, ?_⟩
  exact copyFold_copied srcs (dst0.getD []) hnd

/-- Witness for C7: exporting two sessions onto a destination that already
holds a stale copy of the first reports success with count 2 and leaves the
first destination directory replaced wholesale by the fresh source tree. -/
theorem copyWorkerRun_success_witness :
    (copyWorkerRun [("2026-02-12_10-00-00", Except.ok wTreeA),
        ("2026-02-12_11-00-00", Except.ok wTreeB)] (some wDst)).ok = true ∧
    (copyWorkerRun [("2026-02-12_10-00-00", Except.ok wTreeA),
        ("2026-02-12_11-00-00", Except.ok wTreeB)] (some wDst)).msg = "완료: 2개 세션 복사됨" ∧
    fsGet (copyWorkerRun [("2026-02-12_10-00-00", Except.ok wTreeA),
        ("2026-02-12_11-00-00", Except.ok wTreeB)] (some wDst)).entries
      "2026-02-12_10-00-00" = some wTreeA := by
  have h := copyWorkerRun_success
    [("2026-02-12_10-00-00", wTreeA), ("2026-02-12_11-00-00", wTreeB)] (some wDst) (by decide)
  exact ⟨h.2.1, h.2.2.1, h.2.2.2 ("2026-02-12_10-00-00", wTreeA) (by simp)⟩

/-- C8: when a copy fails partway through an export job, the job emits
exactly one terminal outcome, which is Failed and carries the error message
(never a success report), and every session fully copied before the failure
remains present at the destination — no rollback. -/
theorem copyWorkerRun_failure (pre : List (String × DirTree)) (name e : String)
    (rest : List (String × Except String DirTree)) (dst0 : Option (List (String × DirTree)))
    (hnd : (pre.map Prod.fst).Nodup) (hn : name ∉ pre.map Prod.fst) :
    (copyWorkerRun ((pre.map fun p => (p.1, Except.ok p.2)) ++
        (name, Except.error e) :: rest) dst0).ok = false ∧
    (copyWorkerRun ((pre.map fun p => (p.1, Except.ok p.2)) ++
        (name, Except.error e) :: rest) dst0).msg = "실패: " ++ e ∧
    ∀ p ∈ pre,
      fsGet (copyWorkerRun ((pre.map fun p => (p.1, Except.ok p.2)) ++
        (name, Except.error e) :: rest) dst0).entries p.1 = some p.2 := by
  simp only [copyWorkerRun, copyLoop_ok_then_err]
  refine ⟨by trivial, by trivial, ?_⟩
  intro p hp
  have hne : p.1 ≠ name := fun hcontra => hn (hcontra ▸ List.mem_map_of_mem Prod.fst hp)
  rw [fsGet_filter_other _ hne]
  exact copyFold_copied pre (dst0.getD []) hnd p hp

/-- Witness for C8: an export of session A followed by a failing copy of
session B reports Failed with the triggering message while session A's fresh
destination copy remains on disk. -/
theorem copyWorkerRun_failure_witness :
    (copyWorkerRun [("2026-02-12_10-00-00", Except.ok wTreeA),
        ("2026-02-12_11-00-00", Except.error "No space left on device")] none).ok = false ∧
    (copyWorkerRun [("2026-02-12_10-00-00", Except.ok wTreeA),
        ("2026-02-12_11-00-00", Except.error "No space left on device")] none).msg =
      "실패: No space left on device" ∧
    fsGet (copyWorkerRun [("2026-02-12_10-00-00", Except.ok wTreeA),
        ("2026-02-12_11-00-00", Except.error "No space left on device")] none).entries
      "2026-02-12_10-00-00" = some wTreeA := by
  have h := copyWorkerRun_failure [("2026-02-12_10-00-00", wTreeA)] "2026-02-12_11-00-00"
    "No space left on device" [] none (by decide) (by decide)
  exact ⟨h.1, h.2.1, h.2.2 ("2026-02-12_10-00-00", wTreeA) (by simp)⟩

/-- C4: in any state satisfying the panel guard invariant (worker running
implies copy button disabled — an invariant every event preserves, see
usbStep_preserves_inv), a copy request delivered while an export worker is
running is a no-op: the state, including the running job's sources and
destination, is unchanged and no new worker is created. -/
theorem export_busy_click_noop (s : UsbState) (hInv : UsbInv s)
    (hRun : s.workerRunning = true) (sessions : List String) :
    usbStep (.click sessions) s = s := by
  have hb := hInv hRun
  simp [usbStep, copy_selected_date_to_usb, hb]

/-- Witness for C4: with a worker busy exporting 2026-02-12, a click
requesting another export leaves the panel state — job included —
unchanged. -/
theorem export_busy_click_noop_witness :
    usbStep (.click ["2026-02-12_14-03-55"]) wUsbState = wUsbState :=
  export_busy_click_noop wUsbState (fun _ => rfl) rfl ["2026-02-12_14-03-55"]

end AInanobio
